import Mathlib

set_option maxRecDepth 20000

/-!
Shallow embedding of src/pgclient.c (pspg): the row bucket store
(push_row), record packing, the display width calculator (field_info),
the column type classifier (column_type_class) and the ingestion
pipeline (pg_exec_query).

Text values are modelled as lists of byte / code-point values (Nat);
the line break unit is 10 and the C string terminator is 0.
Error messages are modelled as lists of characters.
-/

/-- Configuration surface consumed by field_info: the force8bit flag of
the Options structure (pspg.h). -/
structure Options where
  force8bit : Bool

/-- Modelled from the spec: the code-point display width table used by
the default (UTF) mode of the calculator, which lives in unicode.c and
is outside the modelled core.  Per the spec, East-Asian wide code
points count 2, combining marks count 0, and every other code point
counts 1; representative ranges are used (combining U+0300..U+036F,
wide CJK / Hangul blocks).  Printable ASCII has width 1. -/
def cpWidth (c : Nat) : Nat :=
  if 0x300 ≤ c ∧ c ≤ 0x36F then 0
  else if (0x1100 ≤ c ∧ c ≤ 0x115F) ∨ (0x4E00 ≤ c ∧ c ≤ 0x9FFF) ∨ (0xAC00 ≤ c ∧ c ≤ 0xD7A3) then 2
  else 1

/-- The force8bit loop of field_info (pgclient.c lines 104-116): cw is
the running byte count of the current line, width the widest line seen
so far, ml the value held by the callers multiline flag.  On a line
break the flag is set and the line restarts; the flag is never
cleared. -/
def fi8Loop : List Nat → Nat → Nat → Bool → Nat × Bool
  | [], cw, width, ml => (if cw > width then cw else width, ml)
  | c :: s, cw, width, ml =>
      if c = 10 then fi8Loop s 0 (if cw > width then cw else width) true
      else fi8Loop s (cw + 1) width ml

/-- Modelled from the spec: the scanning loop of
utf_string_dsplen_multiline (unicode.c, not part of the modelled core).
Scan once keeping a running current-line width, reset the line and set
the flag on every line break, and return the maximum line width at the
end.  The diagnostic digit / other counters of the real function are
not consumed by pgclient.c and are omitted. -/
def utfLoop : List Nat → Nat → Nat → Bool → Nat × Bool
  | [], cw, width, ml => (if cw > width then cw else width, ml)
  | c :: s, cw, width, ml =>
      if c = 10 then utfLoop s 0 (if cw > width then cw else width) true
      else utfLoop s (cw + cpWidth c) width ml

/-- Modelled from the spec: utf_string_dsplen_multiline as a pure
function of the text; the multiline flag is an output only, reset at
the start of the scan. -/
def utf_string_dsplen_multiline (s : List Nat) : Nat × Bool :=
  utfLoop s 0 0 false

/-- field_info (pgclient.c lines 93-120).  The Bool argument is the
value of the callers multiline variable before the call and the
returned Bool is its value after the call: the force8bit branch only
ever sets it, while the default branch hands the variable to the
underlying calculator which resets it first. -/
def field_info (opts : Options) (str : List Nat) (ml : Bool) : Nat × Bool :=
  if opts.force8bit then fi8Loop str 0 0 ml
  else utf_string_dsplen_multiline str

/-!
The row bucket store.  RowBucketType (pspg.h) holds fixed arrays
rows[1000] and multilines[1000], a count nrows and a next_bucket link;
a bucket is modelled as the list of its (row, multiline) entries, with
nrows the list length, and the chain of next_bucket links as the list
of buckets, the tail bucket last.  push_row (pgclient.c lines 36-58)
receives the tail bucket; if it already holds 1000 entries a new
bucket is allocated (modelled by the allocOk argument; a failed
allocation makes push_row return NULL before any link or write is
performed), linked as the new tail and written instead.  The chain
level embedding below applies that step to the last bucket of the
chain; none models the NULL return, in which case no new chain state
exists at all, matching the untouched C chain.
-/

/-- push_row lifted to the whole chain: append (row, ml) to the tail
bucket, or to a freshly allocated bucket when the tail is full. -/
def push_row {α : Type} : List (List (α × Bool)) → α → Bool → Bool → Option (List (List (α × Bool)))
  | [], _, _, _ => none
  | [b], row, ml, allocOk =>
      if 1000 ≤ b.length then
        if allocOk then some [b, [(row, ml)]] else none
      else some [b ++ [(row, ml)]]
  | b :: b2 :: c, row, ml, allocOk =>
      (push_row (b2 :: c) row ml allocOk).map (b :: ·)

/-- Repeated push_row with every allocation succeeding, as performed by
the ingestion loop of pg_exec_query. -/
def pushManyOk {α : Type} : List (List (α × Bool)) → List (α × Bool) → Option (List (List (α × Bool)))
  | c, [] => some c
  | c, e :: es =>
      match push_row c e.1 e.2 true with
      | none => none
      | some c2 => pushManyOk c2 es

/-- The chain invariant of the bucket store: the chain is nonempty,
every bucket except the last holds exactly 1000 records, and the last
holds at most 1000. -/
def chainInv {α : Type} : List (List (α × Bool)) → Prop
  | [] => False
  | [b] => b.length ≤ 1000
  | b :: b2 :: c => b.length = 1000 ∧ chainInv (b2 :: c)

/-!
The record allocator.  The storing loops of pg_exec_query (header,
lines 196-216, and data rows, lines 222-258) copy each field value
into one contiguous payload buffer followed by its 0 terminator
(strcpy), recording in row->fields[i] the position where field i
starts; a field is later read as the bytes from its recorded position
up to the first terminator.
-/

/-- The packed payload buffer of one record: every field value in
order, each followed by its 0 terminator. -/
def packRow : List (List Nat) → List Nat
  | [] => []
  | v :: vs => v ++ 0 :: packRow vs

/-- The offset recorded in row->fields[i]: one past the terminators of
all earlier fields. -/
def fieldOffset : List (List Nat) → Nat → Nat
  | _, 0 => 0
  | [], _ + 1 => 0
  | v :: vs, i + 1 => v.length + 1 + fieldOffset vs i

/-- Reading a field back from the payload: the bytes from the given
offset up to the first terminator. -/
def readField (buf : List Nat) (off : Nat) : List Nat :=
  (buf.drop off).takeWhile (fun b => b != 0)

/-!
The ingestion pipeline.  pg_exec_query (pgclient.c lines 131-275)
connects, executes the query, rejects more than 1024 columns, captures
the header (types via column_type_class, names packed into a record
and folded into the widths and multiline flags), then streams the data
rows, packing and pushing each one and folding its fields with
max_int.  The external source (libpq) is modelled abstractly per the
spec's external-interface section; every malloc is modelled as
succeeding (the out-of-memory exits are outside the claims).  The
local variable multiline_col is passed to field_info by address
without initialization, so its initial value is a parameter (mlInit)
of the embedding.  In the C code field_info reads row->fields[i], the
strcpy copy of the source value inside the packed payload; since the
values are NUL-terminated C strings the copy holds exactly the value
(the record allocator round trip below proves the stored bytes read
back as the value), so the embedding applies field_info to the value
itself.
-/

/-- column_type_class (pgclient.c lines 60-84): the alignment class of
a column type Oid, the character d for the numeric families and a for
everything else.  The Oid constants are the PostgreSQL catalog values
(INT2 21, INT4 23, INT8 20, FLOAT4 700, FLOAT8 701, NUMERIC 1700,
OID 26, XID 28, CID 29, CASH 790). -/
def column_type_class (ftype : Nat) : Char :=
  if ftype = 21 ∨ ftype = 23 ∨ ftype = 20 ∨ ftype = 700 ∨ ftype = 701
     ∨ ftype = 1700 ∨ ftype = 26 ∨ ftype = 28 ∨ ftype = 29 ∨ ftype = 790
  then 'd' else 'a'

/-- max_int (pgclient.c lines 122-126). -/
def max_int (a b : Nat) : Nat := if a > b then a else b

/-- PrintDataDesc (pspg.h): the layout metadata pg_exec_query fills
in; the C arrays of size 1024 are modelled as lists of length
nfields. -/
structure PrintDataDesc where
  nfields : Nat
  has_header : Bool
  types : List Char
  widths : List Nat
  multilines : List Bool

/-- The abstract external data source (libpq), modelled per the spec:
connection status, the sources error text, the query result status,
and the tabular result as column count, column names, column type Oids
and rows of field values. -/
structure PGSource where
  connectionOk : Bool
  errorMessage : List Char
  resultTuplesOk : Bool
  nfields : Nat
  fnames : List (List Nat)
  ftypes : List Nat
  tuples : List (List (List Nat))

/-- The observable outcome of one pg_exec_query call: whether
leave_ncurses terminated the process and with which message, the
return value otherwise, whether PQclear and PQfinish released the
source resources, the caller visible *err, the bucket chain and the
descriptor. -/
structure ExecOutcome where
  exited : Bool
  exitMsg : List Char
  retval : Bool
  released : Bool
  errOut : Option (List Char)
  chain : List (List ((List Nat) × Bool))
  pdesc : PrintDataDesc

/-- The header storing loop (lines 203-216): for each column name run
field_info threading multiline_col, assign widths[i] and
multilines[i], and accumulate multiline_row.  Returns (widths,
multilines, final multiline_col, multiline_row). -/
def headerFold (opts : Options) : List (List Nat) → Bool → List Nat × List Bool × Bool × Bool
  | [], mlcol => ([], [], mlcol, false)
  | n :: ns, mlcol =>
      let r := field_info opts n mlcol
      let rest := headerFold opts ns r.2
      (r.1 :: rest.1, r.2 :: rest.2.1, rest.2.2.1, r.2 || rest.2.2.2)

/-- The per-row field loop (lines 240-253): widths[j] becomes
max_int(widths[j], field_info(value)), multilines[j] is or-ed with the
flag, multiline_col threads through; an arity mismatch (never reached
from the pipeline) yields empty outputs. -/
def rowFold (opts : Options) : List (List Nat) → List Nat → List Bool → Bool → List Nat × List Bool × Bool × Bool
  | [], _, _, mlcol => ([], [], mlcol, false)
  | v :: vs, w :: ws, m :: ms, mlcol =>
      let r := field_info opts v mlcol
      let rest := rowFold opts vs ws ms r.2
      (max_int w r.1 :: rest.1, (m || r.2) :: rest.2.1, rest.2.2.1, r.2 || rest.2.2.2)
  | _ :: _, _, _, mlcol => ([], [], mlcol, false)

/-- The data row loop (lines 223-258): fold each rows fields into the
descriptor, then pack the row and push it onto the chain. -/
def rowsLoop (opts : Options) : List (List (List Nat)) → List (List ((List Nat) × Bool)) → PrintDataDesc → Bool → List (List ((List Nat) × Bool)) × PrintDataDesc × Bool
  | [], ch, p, mlcol => (ch, p, mlcol)
  | t :: ts, ch, p, mlcol =>
      let r := rowFold opts t p.widths p.multilines mlcol
      let p2 := { p with widths := r.1, multilines := r.2.1 }
      let ch2 := (push_row ch (packRow t) r.2.2.2 true).getD ch
      rowsLoop opts ts ch2 p2 r.2.2.1

/-- pg_exec_query (pgclient.c lines 131-275).  havePg is the
HAVE_POSTGRESQL build flag; errIn, rbIn and pdescIn are the callers
*err, bucket and descriptor before the call; mlInit is the
indeterminate initial value of the uninitialized local multiline_col.
In the build without the PostgreSQL library the message is assigned to
the local parameter err rather than through it, so the caller visible
error output stays errIn and nothing else is touched. -/
def pg_exec_query (havePg : Bool) (opts : Options) (src : PGSource) (mlInit : Bool)
    (errIn : Option (List Char)) (rbIn : List (List ((List Nat) × Bool)))
    (pdescIn : PrintDataDesc) : ExecOutcome :=
  if havePg then
    let chain0 : List (List ((List Nat) × Bool)) := [[]]
    if src.connectionOk = false then
      { exited := false, exitMsg := [], retval := false, released := true,
        errOut := some ("Connection to database failed: ".toList ++ src.errorMessage),
        chain := chain0, pdesc := pdescIn }
    else if src.resultTuplesOk = false then
      { exited := false, exitMsg := [], retval := false, released := true,
        errOut := some ("Query doesn't return data: ".toList ++ src.errorMessage),
        chain := chain0, pdesc := pdescIn }
    else if 1024 < src.nfields then
      { exited := true, exitMsg := "too much columns".toList, retval := false,
        released := true, errOut := errIn, chain := chain0, pdesc := pdescIn }
    else
      let names := src.fnames.take src.nfields
      let hdr := headerFold opts names mlInit
      let pdesc1 : PrintDataDesc :=
        { nfields := src.nfields, has_header := true,
          types := (src.ftypes.take src.nfields).map column_type_class,
          widths := hdr.1, multilines := hdr.2.1 }
      let chain1 := (push_row chain0 (packRow names) hdr.2.2.2 true).getD chain0
      let fin := rowsLoop opts src.tuples chain1 pdesc1 hdr.2.2.1
      { exited := false, exitMsg := [], retval := true, released := true,
        errOut := none, chain := fin.1, pdesc := fin.2.1 }
  else
    { exited := false, exitMsg := [], retval := false, released := false,
      errOut := errIn, chain := rbIn, pdesc := pdescIn }

/-- The width the calculator reports for one value (the first
component of field_info; by field_info_fst_indep below it does not
depend on the flag argument). -/
def fieldWidth (opts : Options) (v : List Nat) : Nat := (field_info opts v false).1

/-- One data row folded into the running column widths: pointwise
max_int against the fields widths. -/
def colWidthStep (opts : Options) (ws : List Nat) (t : List (List Nat)) : List Nat :=
  List.zipWith max_int ws (t.map (fieldWidth opts))

/-- The fi8 loop never clears the flag: scanning a string free of line
breaks leaves the flag argument untouched. -/
theorem fi8Loop_snd_of_no_nl (s : List Nat) (cw width : Nat) (ml : Bool)
    (h : 10 ∉ s) : (fi8Loop s cw width ml).2 = ml := by
  induction s generalizing cw width with
  | nil => rfl
  | cons c s ih =>
      simp only [List.mem_cons, not_or] at h
      simp only [fi8Loop, if_neg (Ne.symm h.1)]
      exact ih _ _ h.2

/-- The utf loop leaves the flag argument untouched when the string has
no line break. -/
theorem utfLoop_snd_of_no_nl (s : List Nat) (cw width : Nat) (ml : Bool)
    (h : 10 ∉ s) : (utfLoop s cw width ml).2 = ml := by
  induction s generalizing cw width with
  | nil => rfl
  | cons c s ih =>
      simp only [List.mem_cons, not_or] at h
      simp only [utfLoop, if_neg (Ne.symm h.1)]
      exact ih _ _ h.2

/-- C1: the claim as frozen is refuted by the force8bit branch of
field_info: the value [120] contains no line break, yet when the
callers flag enters the call already true, field_info reports the flag
true — the branch never clears the flag, so the reported value is not
independent of the flag value before the call. -/
theorem C1_counterexample :
    10 ∉ ([120] : List Nat) ∧ (field_info ⟨true⟩ [120] true).2 = true := by
  constructor
  · decide
  · rfl

/-- C1 (amended): for every mode and every prior flag value, the value
"a\nbb\nc" (bytes [97,10,98,98,10,99]) yields width 2 and multiline
true; a value with no line break reports the flag false provided the
flag enters the call false (in particular empty text yields width 0 and
flag false), and in the default (UTF) mode this holds regardless of the
prior flag value; in force8bit mode the flag is only ever set, never
cleared. -/
theorem C1_field_info_multiline (opts : Options) (ml : Bool) (s : List Nat)
    (h : 10 ∉ s) :
    field_info opts [97, 10, 98, 98, 10, 99] ml = (2, true)
    ∧ (field_info opts s false).2 = false
    ∧ field_info opts [] false = (0, false)
    ∧ (field_info ⟨false⟩ s ml).2 = false := by
  refine ⟨?_, ?_, ?_, ?_⟩
  · obtain ⟨f8⟩ := opts
    cases f8 <;> cases ml <;> rfl
  · obtain ⟨f8⟩ := opts
    cases f8
    · exact utfLoop_snd_of_no_nl s 0 0 false h
    · exact fi8Loop_snd_of_no_nl s 0 0 false h
  · obtain ⟨f8⟩ := opts
    cases f8 <;> rfl
  · exact utfLoop_snd_of_no_nl s 0 0 false h

/-- C1 witness: the amended theorem instantiated at force8bit mode,
prior flag true and the line-break-free value [120]. -/
theorem C1_witness :
    10 ∉ ([120] : List Nat)
    ∧ (field_info ⟨true⟩ [97, 10, 98, 98, 10, 99] true = (2, true)
       ∧ (field_info ⟨true⟩ [120] false).2 = false
       ∧ field_info ⟨true⟩ [] false = (0, false)
       ∧ (field_info ⟨false⟩ [120] true).2 = false) :=
  ⟨by decide, C1_field_info_multiline ⟨true⟩ true [120] (by decide)⟩

theorem push_row_single_notfull {α : Type} (b : List (α × Bool)) (r : α) (ml ok : Bool)
    (h : b.length < 1000) : push_row [b] r ml ok = some [b ++ [(r, ml)]] := by
  simp [push_row, Nat.not_le.mpr h]

theorem push_row_single_full {α : Type} (b : List (α × Bool)) (r : α) (ml : Bool)
    (h : 1000 ≤ b.length) : push_row [b] r ml true = some [b, [(r, ml)]] := by
  simp [push_row, h]

theorem push_row_ne_nil {α : Type} (c : List (List (α × Bool))) (r : α) (ml ok : Bool)
    (c2 : List (List (α × Bool))) (h : push_row c r ml ok = some c2) : c2 ≠ [] := by
  induction c generalizing c2 with
  | nil => simp [push_row] at h
  | cons b c ih =>
      cases c with
      | nil =>
          cases ok with
          | false =>
              by_cases hb : 1000 ≤ b.length
              · simp [push_row, hb] at h
              · simp [push_row, hb] at h
                subst h
                simp
          | true =>
              by_cases hb : 1000 ≤ b.length
              · simp [push_row, hb] at h
                subst h
                simp
              · simp [push_row, hb] at h
                subst h
                simp
      | cons b2 c =>
          simp only [push_row, Option.map_eq_some'] at h
          obtain ⟨c3, _, hc⟩ := h
          simp [← hc]

theorem pushManyOk_fill {α : Type} (es : List (α × Bool)) (b : List (α × Bool))
    (h : b.length + es.length ≤ 1000) : pushManyOk [b] es = some [b ++ es] := by
  induction es generalizing b with
  | nil => simp [pushManyOk]
  | cons e es ih =>
      have hb : b.length < 1000 := by simp at h; omega
      rw [pushManyOk, push_row_single_notfull b e.1 e.2 true hb]
      have := ih (b ++ [(e.1, e.2)]) (by simp at h ⊢; omega)
      simpa using this

theorem pushManyOk_skip {α : Type} (es : List (α × Bool)) (b : List (α × Bool))
    (c : List (List (α × Bool))) (h : c ≠ []) :
    pushManyOk (b :: c) es = (pushManyOk c es).map (b :: ·) := by
  induction es generalizing b c with
  | nil => simp [pushManyOk]
  | cons e es ih =>
      obtain ⟨b2, c2, rfl⟩ : ∃ b2 c2, c = b2 :: c2 := by
        cases c with
        | nil => exact absurd rfl h
        | cons b2 c2 => exact ⟨b2, c2, rfl⟩
      rw [pushManyOk, pushManyOk]
      show (match (push_row (b2 :: c2) e.1 e.2 true).map (b :: ·) with
        | none => none
        | some c3 => pushManyOk c3 es) = _
      cases hp : push_row (b2 :: c2) e.1 e.2 true with
      | none => simp
      | some c3 =>
          simp only [Option.map_some']
          exact ih b c3 (push_row_ne_nil _ _ _ _ _ hp)

theorem pushManyOk_append {α : Type} (xs ys : List (α × Bool))
    (c : List (List (α × Bool))) :
    pushManyOk c (xs ++ ys) =
      match pushManyOk c xs with
      | none => none
      | some c2 => pushManyOk c2 ys := by
  induction xs generalizing c with
  | nil => simp [pushManyOk]
  | cons x xs ih =>
      rw [List.cons_append, pushManyOk, pushManyOk]
      cases push_row c x.1 x.2 true with
      | none => simp
      | some c2 => exact ih c2

theorem pushManyOk_overflow {α : Type} (t : List (α × Bool)) (es : List (α × Bool))
    (ht : t.length = 1000) (h0 : 0 < es.length) (h1 : es.length ≤ 1000) :
    pushManyOk [t] es = some [t, es] := by
  cases es with
  | nil => simp at h0
  | cons e es =>
      rw [pushManyOk, push_row_single_full t e.1 e.2 (le_of_eq ht.symm)]
      show pushManyOk [t, [(e.1, e.2)]] es = some [t, e :: es]
      rw [pushManyOk_skip es t [[(e.1, e.2)]] (by simp)]
      rw [pushManyOk_fill es [(e.1, e.2)]
        (by simp only [List.length_cons, List.length_nil] at h1 ⊢; omega)]
      simp

/-- C3: starting from one empty bucket, appending exactly 1000 records
fills exactly one bucket (a one-bucket chain, hence no overflow link);
1001 records produce a second bucket holding exactly 1 record; 2000
records produce exactly two full buckets. -/
theorem C3_push_row_bucket_chaining {α : Type} (es : List (α × Bool)) :
    (es.length = 1000 → pushManyOk [[]] es = some [es])
    ∧ (es.length = 1001 →
        pushManyOk [[]] es = some [es.take 1000, es.drop 1000]
        ∧ (es.drop 1000).length = 1)
    ∧ (es.length = 2000 →
        pushManyOk [[]] es = some [es.take 1000, es.drop 1000]
        ∧ (es.take 1000).length = 1000 ∧ (es.drop 1000).length = 1000) := by
  have key : 1000 < es.length → es.length ≤ 2000 →
      pushManyOk [[]] es = some [es.take 1000, es.drop 1000] := by
    intro hgt hle
    have h1 : pushManyOk [[]] (es.take 1000 ++ es.drop 1000)
        = some [es.take 1000, es.drop 1000] := by
      rw [pushManyOk_append]
      have hfill : pushManyOk [([] : List (α × Bool))] (es.take 1000)
          = some [[] ++ es.take 1000] :=
        pushManyOk_fill _ _
          (by simp only [List.length_nil, List.length_take, Nat.zero_add]; omega)
      rw [hfill]
      show pushManyOk [[] ++ es.take 1000] (es.drop 1000) = _
      rw [List.nil_append]
      exact pushManyOk_overflow _ _
        (by simp only [List.length_take]; omega)
        (by simp only [List.length_drop]; omega)
        (by simp only [List.length_drop]; omega)
    rwa [List.take_append_drop] at h1
  refine ⟨?_, ?_, ?_⟩
  · intro h
    have := pushManyOk_fill es ([] : List (α × Bool)) (by simp [h])
    simpa using this
  · intro h
    exact ⟨key (by omega) (by omega), by simp [h]⟩
  · intro h
    exact ⟨key (by omega) (by omega), by simp [h], by simp [h]⟩

/-- C3 witness: the three cases instantiated at concrete record lists
of lengths 1000, 1001 and 2000. -/
theorem C3_witness :
    (List.replicate 1000 ((0 : Nat), false)).length = 1000
    ∧ pushManyOk [[]] (List.replicate 1000 ((0 : Nat), false))
        = some [List.replicate 1000 ((0 : Nat), false)]
    ∧ pushManyOk [[]] (List.replicate 1001 ((0 : Nat), false))
        = some [(List.replicate 1001 ((0 : Nat), false)).take 1000,
                (List.replicate 1001 ((0 : Nat), false)).drop 1000]
    ∧ ((List.replicate 1001 ((0 : Nat), false)).drop 1000).length = 1
    ∧ pushManyOk [[]] (List.replicate 2000 ((0 : Nat), false))
        = some [(List.replicate 2000 ((0 : Nat), false)).take 1000,
                (List.replicate 2000 ((0 : Nat), false)).drop 1000] :=
  ⟨by simp,
   (C3_push_row_bucket_chaining (List.replicate 1000 ((0 : Nat), false))).1 (by simp),
   ((C3_push_row_bucket_chaining (List.replicate 1001 ((0 : Nat), false))).2.1 (by simp)).1,
   ((C3_push_row_bucket_chaining (List.replicate 1001 ((0 : Nat), false))).2.1 (by simp)).2,
   ((C3_push_row_bucket_chaining (List.replicate 2000 ((0 : Nat), false))).2.2 (by simp)).1⟩

/-- C4: every successful push_row preserves the chain invariant (only
the last bucket may be partially filled), and every bucket already at
capacity 1000 is left untouched at its position — a full bucket is
never written to again, a new tail is linked instead. -/
theorem C4_push_row_chain_invariant {α : Type} (ch : List (List (α × Bool))) (r : α)
    (ml ok : Bool) (c2 : List (List (α × Bool)))
    (hinv : chainInv ch) (h : push_row ch r ml ok = some c2) :
    chainInv c2 ∧ ∀ (i : Nat) (b : List (α × Bool)),
      ch[i]? = some b → b.length = 1000 → c2[i]? = some b := by
  induction ch generalizing c2 with
  | nil => exact absurd hinv (by simp [chainInv])
  | cons b c ih =>
      cases c with
      | nil =>
          simp only [chainInv] at hinv
          by_cases hb : 1000 ≤ b.length
          · cases ok with
            | false => simp [push_row, hb] at h
            | true =>
                simp [push_row, hb] at h
                subst h
                refine ⟨⟨le_antisymm hinv hb, by simp [chainInv]⟩, ?_⟩
                intro i bb hgt hlen
                match i with
                | 0 => simpa using hgt
                | i + 1 => simp at hgt
          · simp [push_row, hb] at h
            subst h
            constructor
            · show (b ++ [(r, ml)]).length ≤ 1000
              simp only [List.length_append, List.length_cons, List.length_nil]
              omega
            · intro i bb hgt hlen
              match i with
              | 0 =>
                  simp only [List.getElem?_cons_zero, Option.some.injEq] at hgt
                  exact absurd (hgt ▸ hlen) (by omega)
              | i + 1 => simp at hgt
      | cons b2 c =>
          obtain ⟨hb, hrest⟩ : b.length = 1000 ∧ chainInv (b2 :: c) := hinv
          simp only [push_row, Option.map_eq_some'] at h
          obtain ⟨c3, hc3, rfl⟩ := h
          obtain ⟨hinv3, hpres⟩ := ih c3 hrest hc3
          have hne := push_row_ne_nil _ _ _ _ _ hc3
          constructor
          · cases c3 with
            | nil => exact absurd rfl hne
            | cons x xs => exact ⟨hb, hinv3⟩
          · intro i bb hgt hlen
            match i with
            | 0 => simpa using hgt
            | i + 1 =>
                simp only [List.getElem?_cons_succ] at hgt ⊢
                exact hpres i bb hgt hlen

/-- C4 witness: the invariant preservation instantiated at the one
empty bucket chain and a single concrete append. -/
theorem C4_witness :
    chainInv ([[]] : List (List (Nat × Bool)))
    ∧ push_row ([[]] : List (List (Nat × Bool))) 0 false true = some [[(0, false)]]
    ∧ (chainInv ([[(0, false)]] : List (List (Nat × Bool)))
       ∧ ∀ (i : Nat) (b : List (Nat × Bool)),
           ([[]] : List (List (Nat × Bool)))[i]? = some b → b.length = 1000 →
           ([[(0, false)]] : List (List (Nat × Bool)))[i]? = some b) :=
  ⟨by simp [chainInv], by simp [push_row],
   C4_push_row_chain_invariant [[]] 0 false true [[(0, false)]]
     (by simp [chainInv]) (by simp [push_row])⟩

/-- C10: when the tail bucket is full and the allocation of the new
bucket fails, push_row signals failure by returning none (NULL in the
C code) — the C function returns before linking any bucket or writing
the record, so no chain state is modified; in this functional model no
successor chain state exists at all. -/
theorem C10_push_row_alloc_failure {α : Type} (c : List (List (α × Bool))) (r : α)
    (ml : Bool) (b : List (α × Bool)) (hlast : c.getLast? = some b)
    (hfull : 1000 ≤ b.length) : push_row c r ml false = none := by
  induction c with
  | nil => simp at hlast
  | cons b1 c ih =>
      cases c with
      | nil =>
          simp only [List.getLast?_singleton, Option.some.injEq] at hlast
          subst hlast
          simp [push_row, hfull]
      | cons b2 c =>
          rw [List.getLast?_cons_cons] at hlast
          simp [push_row, ih hlast]

/-- C10 witness: a chain whose single bucket holds 1000 records and a
failing allocation. -/
theorem C10_witness :
    ([List.replicate 1000 ((0 : Nat), false)].getLast?
       = some (List.replicate 1000 ((0 : Nat), false)))
    ∧ 1000 ≤ (List.replicate 1000 ((0 : Nat), false)).length
    ∧ push_row [List.replicate 1000 ((0 : Nat), false)] 0 false false = none :=
  ⟨by simp, by simp,
   C10_push_row_alloc_failure [List.replicate 1000 ((0 : Nat), false)] 0 false
     (List.replicate 1000 ((0 : Nat), false)) (by simp) (by simp)⟩

theorem takeWhile_until_zero (v rest : List Nat) (h : 0 ∉ v) :
    (v ++ 0 :: rest).takeWhile (fun b => b != 0) = v := by
  induction v with
  | nil => simp
  | cons a v ih =>
      simp only [List.mem_cons, not_or] at h
      have ha : (a != 0) = true := by
        simp only [bne_iff_ne, ne_eq]
        exact fun hc => h.1 (hc ▸ rfl)
      rw [List.cons_append,
        @List.takeWhile_cons_of_pos _ (fun b => b != 0) a (v ++ 0 :: rest) ha, ih h.2]

theorem drop_pack (v rest : List Nat) (k : Nat) :
    (v ++ 0 :: rest).drop (v.length + 1 + k) = rest.drop k := by
  have h1 : v ++ 0 :: rest = (v ++ [0]) ++ rest := by simp
  have h2 : (v ++ [0]).length = v.length + 1 := by simp
  rw [h1, ← List.drop_drop, List.drop_left' h2]

/-- C6: round trip through the record allocator — reading field i of a
packed record at its recorded offset returns exactly the i-th value
supplied, stopping at that fields own terminator and never crossing
into another fields bytes; the values are C strings, hence free of the
terminator byte 0. -/
theorem C6_record_roundtrip (values : List (List Nat)) (i : Nat)
    (hi : i < values.length) (hnn : ∀ v ∈ values, 0 ∉ v) :
    readField (packRow values) (fieldOffset values i) = values.get ⟨i, hi⟩ := by
  induction values generalizing i with
  | nil => simp at hi
  | cons v vs ih =>
      cases i with
      | zero =>
          show readField (v ++ 0 :: packRow vs) 0 = v
          unfold readField
          rw [List.drop_zero]
          exact takeWhile_until_zero v (packRow vs) (hnn v (by simp))
      | succ i =>
          show readField (v ++ 0 :: packRow vs) (v.length + 1 + fieldOffset vs i)
            = vs.get ⟨i, by simpa using hi⟩
          unfold readField
          rw [drop_pack]
          exact ih i (by simpa using hi) (fun w hw => hnn w (by simp [hw]))

/-- C6 witness: a two-field record with values [104, 105] and [] read
back at indices 0 and 1. -/
theorem C6_witness :
    (0 : Nat) < ([[104, 105], []] : List (List Nat)).length
    ∧ (∀ v ∈ ([[104, 105], []] : List (List Nat)), 0 ∉ v)
    ∧ readField (packRow [[104, 105], []]) (fieldOffset [[104, 105], []] 0)
        = ([[104, 105], []] : List (List Nat)).get ⟨0, by decide⟩
    ∧ readField (packRow [[104, 105], []]) (fieldOffset [[104, 105], []] 1)
        = ([[104, 105], []] : List (List Nat)).get ⟨1, by decide⟩ :=
  ⟨by decide, by decide,
   C6_record_roundtrip [[104, 105], []] 0 (by decide) (by decide),
   C6_record_roundtrip [[104, 105], []] 1 (by decide) (by decide)⟩

/-- C5: with a healthy connection and a tuples result, a column count
above 1024 (such as 1025) makes pg_exec_query release the result and
the connection and terminate the process through leave_ncurses with
the message too much columns, with the store still holding no record;
a column count of exactly 1024 is accepted and the call returns
true. -/
theorem C5_too_many_columns (opts : Options) (src : PGSource) (mlInit : Bool)
    (errIn : Option (List Char)) (rbIn : List (List ((List Nat) × Bool)))
    (pdescIn : PrintDataDesc)
    (hconn : src.connectionOk = true) (hres : src.resultTuplesOk = true) :
    (1024 < src.nfields →
      (pg_exec_query true opts src mlInit errIn rbIn pdescIn).exited = true
      ∧ (pg_exec_query true opts src mlInit errIn rbIn pdescIn).exitMsg
          = "too much columns".toList
      ∧ (pg_exec_query true opts src mlInit errIn rbIn pdescIn).released = true
      ∧ (pg_exec_query true opts src mlInit errIn rbIn pdescIn).chain = [[]])
    ∧ (src.nfields = 1024 →
      (pg_exec_query true opts src mlInit errIn rbIn pdescIn).exited = false
      ∧ (pg_exec_query true opts src mlInit errIn rbIn pdescIn).retval = true) := by
  constructor
  · intro h
    simp [pg_exec_query, hconn, hres, h]
  · intro h
    simp [pg_exec_query, hconn, hres, h]

/-- C5 witness: a source reporting 1025 columns terminates with no
record stored, one reporting exactly 1024 columns is accepted. -/
theorem C5_witness :
    1024 < (1025 : Nat)
    ∧ ((pg_exec_query true ⟨true⟩ ⟨true, [], true, 1025, [], [], []⟩ false none [[]]
          ⟨0, false, [], [], []⟩).exited = true
       ∧ (pg_exec_query true ⟨true⟩ ⟨true, [], true, 1025, [], [], []⟩ false none [[]]
          ⟨0, false, [], [], []⟩).exitMsg = "too much columns".toList
       ∧ (pg_exec_query true ⟨true⟩ ⟨true, [], true, 1025, [], [], []⟩ false none [[]]
          ⟨0, false, [], [], []⟩).released = true
       ∧ (pg_exec_query true ⟨true⟩ ⟨true, [], true, 1025, [], [], []⟩ false none [[]]
          ⟨0, false, [], [], []⟩).chain = [[]])
    ∧ ((pg_exec_query true ⟨true⟩ ⟨true, [], true, 1024, [], [], []⟩ false none [[]]
          ⟨0, false, [], [], []⟩).exited = false
       ∧ (pg_exec_query true ⟨true⟩ ⟨true, [], true, 1024, [], [], []⟩ false none [[]]
          ⟨0, false, [], [], []⟩).retval = true) :=
  ⟨by decide,
   (C5_too_many_columns ⟨true⟩ ⟨true, [], true, 1025, [], [], []⟩ false none [[]]
      ⟨0, false, [], [], []⟩ rfl rfl).1 (by decide),
   (C5_too_many_columns ⟨true⟩ ⟨true, [], true, 1024, [], [], []⟩ false none [[]]
      ⟨0, false, [], [], []⟩ rfl rfl).2 rfl⟩

/-- C7: a failed connection (SourceUnavailable) or a result that is
not tuples (QueryError) makes pg_exec_query release the source
resources, set the caller visible *err to a non-empty message, append
no record (the store holds only the freshly reset empty bucket) and
return false instead of terminating the process. -/
theorem C7_recoverable_errors (opts : Options) (src : PGSource) (mlInit : Bool)
    (errIn : Option (List Char)) (rbIn : List (List ((List Nat) × Bool)))
    (pdescIn : PrintDataDesc) :
    (src.connectionOk = false →
      (pg_exec_query true opts src mlInit errIn rbIn pdescIn).retval = false
      ∧ (pg_exec_query true opts src mlInit errIn rbIn pdescIn).exited = false
      ∧ (pg_exec_query true opts src mlInit errIn rbIn pdescIn).released = true
      ∧ (pg_exec_query true opts src mlInit errIn rbIn pdescIn).chain = [[]]
      ∧ (pg_exec_query true opts src mlInit errIn rbIn pdescIn).errOut
          = some ("Connection to database failed: ".toList ++ src.errorMessage)
      ∧ "Connection to database failed: ".toList ++ src.errorMessage ≠ [])
    ∧ (src.connectionOk = true → src.resultTuplesOk = false →
      (pg_exec_query true opts src mlInit errIn rbIn pdescIn).retval = false
      ∧ (pg_exec_query true opts src mlInit errIn rbIn pdescIn).exited = false
      ∧ (pg_exec_query true opts src mlInit errIn rbIn pdescIn).released = true
      ∧ (pg_exec_query true opts src mlInit errIn rbIn pdescIn).chain = [[]]
      ∧ (pg_exec_query true opts src mlInit errIn rbIn pdescIn).errOut
          = some ("Query doesn't return data: ".toList ++ src.errorMessage)
      ∧ "Query doesn't return data: ".toList ++ src.errorMessage ≠ []) := by
  constructor
  · intro h
    refine ⟨?_, ?_, ?_, ?_, ?_, ?_⟩
    · simp [pg_exec_query, h]
    · simp [pg_exec_query, h]
    · simp [pg_exec_query, h]
    · simp [pg_exec_query, h]
    · simp [pg_exec_query, h]
    · exact List.append_ne_nil_of_left_ne_nil (by decide) _
  · intro h1 h2
    refine ⟨?_, ?_, ?_, ?_, ?_, ?_⟩
    · simp [pg_exec_query, h1, h2]
    · simp [pg_exec_query, h1, h2]
    · simp [pg_exec_query, h1, h2]
    · simp [pg_exec_query, h1, h2]
    · simp [pg_exec_query, h1, h2]
    · exact List.append_ne_nil_of_left_ne_nil (by decide) _

/-- C7 witness: a refused connection and a non-tuples result, each on
a concrete source. -/
theorem C7_witness :
    (⟨false, ['x'], true, 0, [], [], []⟩ : PGSource).connectionOk = false
    ∧ ((pg_exec_query true ⟨true⟩ ⟨false, ['x'], true, 0, [], [], []⟩ false none [[]]
          ⟨0, false, [], [], []⟩).retval = false
       ∧ (pg_exec_query true ⟨true⟩ ⟨false, ['x'], true, 0, [], [], []⟩ false none [[]]
          ⟨0, false, [], [], []⟩).exited = false
       ∧ (pg_exec_query true ⟨true⟩ ⟨false, ['x'], true, 0, [], [], []⟩ false none [[]]
          ⟨0, false, [], [], []⟩).released = true
       ∧ (pg_exec_query true ⟨true⟩ ⟨false, ['x'], true, 0, [], [], []⟩ false none [[]]
          ⟨0, false, [], [], []⟩).chain = [[]]
       ∧ (pg_exec_query true ⟨true⟩ ⟨false, ['x'], true, 0, [], [], []⟩ false none [[]]
          ⟨0, false, [], [], []⟩).errOut
          = some ("Connection to database failed: ".toList ++ ['x'])
       ∧ "Connection to database failed: ".toList ++ ['x'] ≠ [])
    ∧ ((pg_exec_query true ⟨true⟩ ⟨true, ['y'], false, 0, [], [], []⟩ false none [[]]
          ⟨0, false, [], [], []⟩).retval = false
       ∧ (pg_exec_query true ⟨true⟩ ⟨true, ['y'], false, 0, [], [], []⟩ false none [[]]
          ⟨0, false, [], [], []⟩).exited = false
       ∧ (pg_exec_query true ⟨true⟩ ⟨true, ['y'], false, 0, [], [], []⟩ false none [[]]
          ⟨0, false, [], [], []⟩).released = true
       ∧ (pg_exec_query true ⟨true⟩ ⟨true, ['y'], false, 0, [], [], []⟩ false none [[]]
          ⟨0, false, [], [], []⟩).chain = [[]]
       ∧ (pg_exec_query true ⟨true⟩ ⟨true, ['y'], false, 0, [], [], []⟩ false none [[]]
          ⟨0, false, [], [], []⟩).errOut
          = some ("Query doesn't return data: ".toList ++ ['y'])
       ∧ "Query doesn't return data: ".toList ++ ['y'] ≠ []) :=
  ⟨rfl,
   (C7_recoverable_errors ⟨true⟩ ⟨false, ['x'], true, 0, [], [], []⟩ false none [[]]
      ⟨0, false, [], [], []⟩).1 rfl,
   (C7_recoverable_errors ⟨true⟩ ⟨true, ['y'], false, 0, [], [], []⟩ false none [[]]
      ⟨0, false, [], [], []⟩).2 rfl rfl⟩

/-- C8: in a build without HAVE_POSTGRESQL, pg_exec_query returns
false immediately with nothing ingested — but contrary to the claim
the caller visible error output *err is NOT set: line 269 of
pgclient.c assigns the message to the local parameter err instead of
through it (the defect the spec flags), so the callers *err keeps
whatever value it had before the call. -/
theorem C8_missing_library_defect (opts : Options) (src : PGSource) (mlInit : Bool)
    (errIn : Option (List Char)) (rbIn : List (List ((List Nat) × Bool)))
    (pdescIn : PrintDataDesc) :
    (pg_exec_query false opts src mlInit errIn rbIn pdescIn).retval = false
    ∧ (pg_exec_query false opts src mlInit errIn rbIn pdescIn).errOut = errIn
    ∧ (pg_exec_query false opts src mlInit errIn rbIn pdescIn).released = false
    ∧ (pg_exec_query false opts src mlInit errIn rbIn pdescIn).chain = rbIn := by
  simp [pg_exec_query]

theorem fi8Loop_fst_indep (s : List Nat) (cw width : Nat) (a b : Bool) :
    (fi8Loop s cw width a).1 = (fi8Loop s cw width b).1 := by
  induction s generalizing cw width a b with
  | nil => rfl
  | cons c s ih =>
      by_cases hc : c = 10
      · simp only [fi8Loop, if_pos hc]
      · simp only [fi8Loop, if_neg hc]
        exact ih _ _ _ _

/-- The width field_info reports does not depend on the value the
multiline flag holds before the call. -/
theorem field_info_fst_indep (opts : Options) (s : List Nat) (a b : Bool) :
    (field_info opts s a).1 = (field_info opts s b).1 := by
  unfold field_info
  by_cases h : opts.force8bit
  · simp only [if_pos h]
    exact fi8Loop_fst_indep s 0 0 a b
  · simp only [if_neg h]

/-- The header loop assigns widths[i] the calculator width of the
i-th column name. -/
theorem headerFold_widths (opts : Options) (ns : List (List Nat)) (ml : Bool) :
    (headerFold opts ns ml).1 = ns.map (fieldWidth opts) := by
  induction ns generalizing ml with
  | nil => rfl
  | cons n ns ih =>
      show (field_info opts n ml).1 :: (headerFold opts ns (field_info opts n ml).2).1
        = (n :: ns).map (fieldWidth opts)
      rw [List.map_cons, ih, field_info_fst_indep opts n ml false]
      rfl

theorem headerFold_ml_len (opts : Options) (ns : List (List Nat)) (ml : Bool) :
    (headerFold opts ns ml).2.1.length = ns.length := by
  induction ns generalizing ml with
  | nil => rfl
  | cons n ns ih =>
      show ((field_info opts n ml).2
          :: (headerFold opts ns (field_info opts n ml).2).2.1).length = ns.length + 1
      simp [ih]

/-- The row loop updates widths to the pointwise max_int with the
fields calculator widths. -/
theorem rowFold_widths (opts : Options) :
    ∀ (vs : List (List Nat)) (ws : List Nat) (ms : List Bool) (ml : Bool),
    vs.length = ws.length → ws.length = ms.length →
    (rowFold opts vs ws ms ml).1 = List.zipWith max_int ws (vs.map (fieldWidth opts))
  | [], ws, ms, ml, _, _ => by simp [rowFold]
  | v :: vs, w :: ws, m :: ms, ml, h1, h2 => by
      show max_int w (field_info opts v ml).1
          :: (rowFold opts vs ws ms (field_info opts v ml).2).1 = _
      rw [List.map_cons, List.zipWith_cons_cons,
        rowFold_widths opts vs ws ms _ (by simpa using h1) (by simpa using h2),
        field_info_fst_indep opts v ml false]
      rfl
  | _ :: _, [], _, _, h1, _ => by simp at h1
  | _ :: _, _ :: _, [], _, _, h2 => by simp at h2

theorem rowFold_ml_len (opts : Options) :
    ∀ (vs : List (List Nat)) (ws : List Nat) (ms : List Bool) (ml : Bool),
    vs.length = ws.length → ws.length = ms.length →
    (rowFold opts vs ws ms ml).2.1.length = vs.length
  | [], _, _, _, _, _ => rfl
  | v :: vs, w :: ws, m :: ms, ml, h1, h2 => by
      show ((m || (field_info opts v ml).2)
          :: (rowFold opts vs ws ms (field_info opts v ml).2).2.1).length = vs.length + 1
      simp [rowFold_ml_len opts vs ws ms _ (by simpa using h1) (by simpa using h2)]
  | _ :: _, [], _, _, h1, _ => by simp at h1
  | _ :: _, _ :: _, [], _, _, h2 => by simp at h2

/-- The data row loop never touches pdesc->types. -/
theorem rowsLoop_types (opts : Options) :
    ∀ (ts : List (List (List Nat))) (ch : List (List ((List Nat) × Bool)))
      (p : PrintDataDesc) (ml : Bool),
    (rowsLoop opts ts ch p ml).2.1.types = p.types
  | [], _, _, _ => rfl
  | t :: ts, ch, p, ml => by
      simp only [rowsLoop]
      exact rowsLoop_types opts ts _ _ _

/-- After the data row loop the widths are the fold of colWidthStep
over the rows. -/
theorem rowsLoop_widths (opts : Options) :
    ∀ (ts : List (List (List Nat))) (ch : List (List ((List Nat) × Bool)))
      (p : PrintDataDesc) (ml : Bool),
    (∀ t ∈ ts, t.length = p.widths.length) →
    p.multilines.length = p.widths.length →
    (rowsLoop opts ts ch p ml).2.1.widths = ts.foldl (colWidthStep opts) p.widths
  | [], _, _, _, _, _ => rfl
  | t :: ts, ch, p, ml, h1, h2 => by
      have ht : t.length = p.widths.length := h1 t (by simp)
      have hw : (rowFold opts t p.widths p.multilines ml).1 = colWidthStep opts p.widths t :=
        rowFold_widths opts t p.widths p.multilines ml ht h2.symm
      have hwlen : (rowFold opts t p.widths p.multilines ml).1.length = p.widths.length := by
        rw [hw]
        unfold colWidthStep
        rw [List.length_zipWith, List.length_map, ht, Nat.min_self]
      have hmlen : (rowFold opts t p.widths p.multilines ml).2.1.length
          = (rowFold opts t p.widths p.multilines ml).1.length := by
        rw [rowFold_ml_len opts t p.widths p.multilines ml ht h2.symm, hwlen]
        exact ht
      simp only [rowsLoop]
      rw [List.foldl_cons]
      have hrec := rowsLoop_widths opts ts
        ((push_row ch (packRow t) (rowFold opts t p.widths p.multilines ml).2.2.2 true).getD ch)
        { p with widths := (rowFold opts t p.widths p.multilines ml).1,
                 multilines := (rowFold opts t p.widths p.multilines ml).2.1 }
        (rowFold opts t p.widths p.multilines ml).2.2.1
        (fun t2 ht2 => (h1 t2 (List.mem_cons_of_mem t ht2)).trans hwlen.symm)
        hmlen
      refine hrec.trans ?_
      show ts.foldl (colWidthStep opts) (rowFold opts t p.widths p.multilines ml).1
        = ts.foldl (colWidthStep opts) (colWidthStep opts p.widths t)
      rw [hw]

theorem max_int_zero_left (x : Nat) : max_int 0 x = x := by
  unfold max_int
  rw [if_neg (Nat.not_lt_zero x)]

/-- Index extraction through the width fold: entry i of the folded
widths is the running max_int of the fields at index i. -/
theorem foldl_colWidthStep_idx (opts : Options) :
    ∀ (ts : List (List (List Nat))) (ws : List Nat) (i : Nat) (w : Nat),
    (∀ t ∈ ts, t.length = ws.length) → ws[i]? = some w →
    (ts.foldl (colWidthStep opts) ws)[i]?
      = some (ts.foldl (fun a t => max_int a (fieldWidth opts (t.getD i []))) w)
  | [], ws, i, w, _, hw => by simpa using hw
  | t :: ts, ws, i, w, h, hw => by
      obtain ⟨hi, -⟩ := List.getElem?_eq_some.mp hw
      have ht : t.length = ws.length := h t (by simp)
      have hti : i < t.length := ht ▸ hi
      have h1 : (colWidthStep opts ws t)[i]? = some (max_int w (fieldWidth opts (t.get ⟨i, hti⟩))) := by
        unfold colWidthStep
        rw [List.getElem?_zipWith', hw, List.getElem?_map,
          List.getElem?_eq_getElem hti]
        rfl
      have hgd : t.getD i [] = t.get ⟨i, hti⟩ := by
        rw [List.getD_eq_getElem?_getD, List.getElem?_eq_getElem hti]
        rfl
      have hlen2 : ∀ t2 ∈ ts, t2.length = (colWidthStep opts ws t).length := by
        intro t2 ht2
        rw [h t2 (by simp [ht2])]
        unfold colWidthStep
        rw [List.length_zipWith, List.length_map, ht, Nat.min_self]
      rw [List.foldl_cons, List.foldl_cons,
        foldl_colWidthStep_idx opts ts (colWidthStep opts ws t) i
          (max_int w (fieldWidth opts (t.get ⟨i, hti⟩))) hlen2 h1, hgd]

/-- C2: after pg_exec_query has folded in the header and all data
rows, widths[i] is exactly the maximum (max_int folded from 0) of the
calculator width of field i over the header record and every data
row. -/
theorem C2_column_width_max (opts : Options) (src : PGSource) (mlInit : Bool)
    (errIn : Option (List Char)) (rbIn : List (List ((List Nat) × Bool)))
    (pdescIn : PrintDataDesc)
    (hconn : src.connectionOk = true) (hres : src.resultTuplesOk = true)
    (hnf : src.nfields ≤ 1024)
    (hnames : src.fnames.length = src.nfields)
    (hrows : ∀ t ∈ src.tuples, t.length = src.nfields)
    (i : Nat) (hi : i < src.nfields) :
    (pg_exec_query true opts src mlInit errIn rbIn pdescIn).pdesc.widths[i]?
      = some (((src.fnames :: src.tuples).map
          fun r => fieldWidth opts (r.getD i [])).foldl max_int 0) := by
  have hnot : ¬ (1024 < src.nfields) := Nat.not_lt.mpr hnf
  have htake : src.fnames.take src.nfields = src.fnames := by
    rw [← hnames]
    exact List.take_length src.fnames
  have hwidths0 : (headerFold opts (src.fnames.take src.nfields) mlInit).1
      = src.fnames.map (fieldWidth opts) := by
    rw [htake, headerFold_widths]
  have hwlen0 : (headerFold opts (src.fnames.take src.nfields) mlInit).1.length
      = src.nfields := by
    rw [hwidths0, List.length_map, hnames]
  have hmlen0 : (headerFold opts (src.fnames.take src.nfields) mlInit).2.1.length
      = src.nfields := by
    rw [headerFold_ml_len, htake, hnames]
  simp only [pg_exec_query, hconn, hres, hnot, if_neg, if_true, Bool.true_eq_false,
    if_false, ite_false, ite_true]
  rw [rowsLoop_widths opts src.tuples _ _ _
    (fun t ht => (hrows t ht).trans hwlen0.symm) (hmlen0.trans hwlen0.symm)]
  rw [hwidths0]
  have hwsi : (src.fnames.map (fieldWidth opts))[i]?
      = some (fieldWidth opts (src.fnames.getD i [])) := by
    have hil : i < src.fnames.length := hnames ▸ hi
    rw [List.getElem?_map, List.getElem?_eq_getElem hil,
      List.getD_eq_getElem?_getD, List.getElem?_eq_getElem hil]
    rfl
  rw [foldl_colWidthStep_idx opts src.tuples (src.fnames.map (fieldWidth opts)) i
    (fieldWidth opts (src.fnames.getD i []))
    (fun t ht => (hrows t ht).trans (by rw [List.length_map, hnames])) hwsi]
  rw [List.map_cons, List.foldl_cons, max_int_zero_left, List.foldl_map]

/-- C2 witness: the end-to-end scenario of the spec — columns id and
name, rows 1 / Al and 22 / Robert, column 1 — in force8bit mode. -/
theorem C2_witness :
    (⟨true, [], true, 2, [[105, 100], [110, 97, 109, 101]], [23, 25],
        [[[49], [65, 108]], [[50, 50], [82, 111, 98, 101, 114, 116]]]⟩
      : PGSource).fnames.length = 2
    ∧ (∀ t ∈ (⟨true, [], true, 2, [[105, 100], [110, 97, 109, 101]], [23, 25],
        [[[49], [65, 108]], [[50, 50], [82, 111, 98, 101, 114, 116]]]⟩
      : PGSource).tuples, t.length = 2)
    ∧ (pg_exec_query true ⟨true⟩
        ⟨true, [], true, 2, [[105, 100], [110, 97, 109, 101]], [23, 25],
          [[[49], [65, 108]], [[50, 50], [82, 111, 98, 101, 114, 116]]]⟩
        false none [[]] ⟨0, false, [], [], []⟩).pdesc.widths[1]?
      = some ((([[105, 100], [110, 97, 109, 101]]
            :: [[[49], [65, 108]], [[50, 50], [82, 111, 98, 101, 114, 116]]]).map
          fun r => fieldWidth ⟨true⟩ (r.getD 1 [])).foldl max_int 0) :=
  ⟨by decide, by decide,
   C2_column_width_max ⟨true⟩
     ⟨true, [], true, 2, [[105, 100], [110, 97, 109, 101]], [23, 25],
       [[[49], [65, 108]], [[50, 50], [82, 111, 98, 101, 114, 116]]]⟩
     false none [[]] ⟨0, false, [], [], []⟩
     rfl rfl (by decide) (by decide) (by decide) 1 (by decide)⟩

/-- C9: the alignment classes are set at header capture time from the
declared column types through column_type_class, and the data row
loop never modifies pdesc->types, whatever rows stream through —
numeric looking values in a generic column included. -/
theorem C9_alignment_stability (opts : Options) (src : PGSource) (mlInit : Bool)
    (errIn : Option (List Char)) (rbIn : List (List ((List Nat) × Bool)))
    (pdescIn : PrintDataDesc)
    (hconn : src.connectionOk = true) (hres : src.resultTuplesOk = true)
    (hnf : src.nfields ≤ 1024) :
    (pg_exec_query true opts src mlInit errIn rbIn pdescIn).pdesc.types
      = (src.ftypes.take src.nfields).map column_type_class
    ∧ ∀ (ts : List (List (List Nat))) (ch : List (List ((List Nat) × Bool)))
        (p : PrintDataDesc) (ml : Bool),
        (rowsLoop opts ts ch p ml).2.1.types = p.types := by
  constructor
  · have hnot : ¬ (1024 < src.nfields) := Nat.not_lt.mpr hnf
    simp only [pg_exec_query, hconn, hres, hnot, Bool.true_eq_false, if_false,
      ite_false, ite_true]
    rw [rowsLoop_types]
  · intro ts ch p ml
    exact rowsLoop_types opts ts ch p ml

/-- C9 witness: one numeric column (Oid 23) and one generic column
(Oid 25) with a numeric looking value streaming through the generic
column. -/
theorem C9_witness :
    (⟨true, [], true, 2, [[107], [116]], [23, 25], [[[52], [53, 53]]]⟩
       : PGSource).connectionOk = true
    ∧ (2 : Nat) ≤ 1024
    ∧ (pg_exec_query true ⟨false⟩
         ⟨true, [], true, 2, [[107], [116]], [23, 25], [[[52], [53, 53]]]⟩
         false none [[]] ⟨0, false, [], [], []⟩).pdesc.types
        = (([23, 25] : List Nat).take 2).map column_type_class
    ∧ ∀ (ts : List (List (List Nat))) (ch : List (List ((List Nat) × Bool)))
        (p : PrintDataDesc) (ml : Bool),
        (rowsLoop ⟨false⟩ ts ch p ml).2.1.types = p.types :=
  ⟨rfl, by decide,
   (C9_alignment_stability ⟨false⟩
      ⟨true, [], true, 2, [[107], [116]], [23, 25], [[[52], [53, 53]]]⟩
      false none [[]] ⟨0, false, [], [], []⟩ rfl rfl (by decide)).1,
   (C9_alignment_stability ⟨false⟩
      ⟨true, [], true, 2, [[107], [116]], [23, 25], [[[52], [53, 53]]]⟩
      false none [[]] ⟨0, false, [], [], []⟩ rfl rfl (by decide)).2⟩
